import Mathlib

/-!
Verification of the numeris invoice backend (Go) against its specification.

Shallow embedding conventions:
* Go `float64` is modelled as `ℚ` (exact arithmetic, the idealisation the
  spec appeals to with "to floating-point tolerance").
* Go `int` is modelled as `Int`; wall-clock instants are modelled as `Int`
  (seconds since the epoch; only order and day-granularity matter).
* Go `(T, error)` results are modelled as `Except String T` or `T × Option String`,
  carrying the error message strings of the source.
* MongoDB is modelled as an explicit state: a list of user documents (the
  `user` collection, each holding an embedded list of invoice documents) and
  an association list from collection name to document list (the standalone
  collections; the source addresses them by the literal names `"invoice"`
  and `"invoices"`, which are therefore distinct collections).  Document
  field access in filters and updates is modelled at the logical level (a
  filter on the invoice-id field reads the stored id); bson key spelling is
  abstracted.  `UpdateOne`/`DeleteOne` act on the first matching document,
  and the positional update acts on the first matching array element.
  A transaction either commits (the new state is returned) or aborts (the
  pre-state is returned unchanged).
-/

namespace Numeris

/-! ## Domain model: `domain/invoice.go` -/

structure Item where
  description : String
  quantity : Int
  unitPrice : ℚ
  totalPrice : ℚ
deriving DecidableEq, Repr

structure PaymentInformation where
  accountName : String
  accountNumber : String
  routingNumber : String
  bankName : String
deriving DecidableEq, Repr

structure CustomerDetails where
  name : String
  phone : String
  email : String
  address : String
deriving DecidableEq, Repr

structure SenderDetails where
  name : String
  phone : String
  email : String
  address : String
deriving DecidableEq, Repr

structure Invoice where
  invoiceID : String
  invoiceNumber : String
  issueDate : String
  dueDate : String
  billingCurrency : String
  discount : ℚ
  totalAmountDue : ℚ
  notes : String
  createdAt : Int
  updatedAt : Int
  paymentInfo : PaymentInformation
  items : List Item
  customer : CustomerDetails
  sender : SenderDetails
deriving DecidableEq, Repr

/-- Character class `[a-zA-Z0-9._%+-]` of the email regular expression. -/
def isLocalChar (c : Char) : Bool :=
  c.isAlpha || c.isDigit || c == '.' || c == '_' || c == '%' || c == '+' || c == '-'

/-- Character class `[a-zA-Z0-9.-]` of the email regular expression. -/
def isDomainChar (c : Char) : Bool :=
  c.isAlpha || c.isDigit || c == '.' || c == '-'

/-- Matcher for the anchored regular expression
`[a-zA-Z0-9._%+-]+@[a-zA-Z0-9.-]+\.[a-zA-Z]{2,}` used by `validateEmail`.
Since the local part cannot contain the at sign, a match (if any) splits at
the first at sign; since the top-level-domain part is alphabetic only, the
separating dot of a match is the last dot after the at sign.  So this
first/last-split decision procedure is equivalent to the regular expression. -/
def emailMatch (s : List Char) : Bool :=
  let lpart := s.takeWhile (fun c => c != '@')
  match s.dropWhile (fun c => c != '@') with
  | '@' :: rest =>
      let tldRev := rest.reverse.takeWhile (fun c => c != '.')
      match rest.reverse.dropWhile (fun c => c != '.') with
      | '.' :: domRev =>
          !lpart.isEmpty && lpart.all isLocalChar &&
          !domRev.isEmpty && domRev.all isDomainChar &&
          decide (2 ≤ tldRev.length) && tldRev.all Char.isAlpha
      | _ => false
  | _ => false

/-- Embedding of `validateEmail` (`domain/user.go`): returns the error, if any. -/
def validateEmail (email : String) : Option String :=
  if emailMatch email.data then none else some "invalid email format"

/-- Embedding of `validateDetails` (`domain/invoice.go`). -/
def validateDetails (name phone email address : String) : Option String :=
  if name == "" then some "name cannot be empty"
  else if phone == "" then some "phone cannot be empty"
  else if (validateEmail email).isSome then some "email cannot be empty"
  else if address == "" then some "address cannot be empty"
  else none

/-- Embedding of `validatePaymentInfo` (`domain/invoice.go`).  The source
conjoins the length comparisons with the emptiness checks using logical AND,
exactly as transcribed here. -/
def validatePaymentInfo (p : PaymentInformation) : Option String :=
  if p.accountName == "" then some "account name cannot be empty"
  else if p.accountNumber == "" && p.accountNumber.length < 11 then
    some "account number cannot be empty"
  else if p.routingNumber == "" && p.routingNumber.length < 7 then
    some "routing number cannot be empty"
  else if p.bankName == "" then some "bank name cannot be empty"
  else none

/-- Embedding of `validateItem` (`domain/invoice.go`). -/
def validateItem (item : Item) : Option String :=
  if item.description == "" then some "item description cannot be empty"
  else if item.quantity ≤ 0 then some "item quantity must be greater than 0"
  else if item.unitPrice < 0 then
    some "item unit price must be greater than or equal to 0"
  else none

/-- Embedding of `calculateTotalAmount` (`domain/invoice.go`): the running
loop over the items followed by the discount factor. -/
def calculateTotalAmount (items : List Item) (discount : ℚ) : ℚ :=
  (items.foldl (fun total item => total + (item.quantity : ℚ) * item.unitPrice) 0)
    * (1 - discount / 100)

/-! ### Calendar dates

`time.Parse("2006-01-02", s)` accepts exactly `YYYY-MM-DD` with a real
calendar day; the parsed value is midnight of that day.  A date is mapped to
its (proleptic Gregorian) day number by the standard civil-day formula, and
midnight of a day to the instant `secPerDay * dayNum`. -/

structure GoDate where
  year : Nat
  month : Nat
  day : Nat
deriving DecidableEq, Repr

def isLeapYear (y : Nat) : Bool :=
  y % 4 == 0 && (y % 100 != 0 || y % 400 == 0)

def daysInMonth (y m : Nat) : Nat :=
  if m == 2 then (if isLeapYear y then 29 else 28)
  else if m == 4 || m == 6 || m == 9 || m == 11 then 30
  else 31

def digitVal (c : Char) : Nat := c.toNat - '0'.toNat

/-- Embedding of `time.Parse("2006-01-02", s)`: four digit year, dash, two
digit month `01..12`, dash, two digit day valid for that month. -/
def parseDate (s : String) : Option GoDate :=
  match s.data with
  | [y1, y2, y3, y4, h1, m1, m2, h2, d1, d2] =>
      if y1.isDigit && y2.isDigit && y3.isDigit && y4.isDigit &&
         h1 == '-' && m1.isDigit && m2.isDigit && h2 == '-' &&
         d1.isDigit && d2.isDigit then
        let y := ((digitVal y1 * 10 + digitVal y2) * 10 + digitVal y3) * 10 + digitVal y4
        let m := digitVal m1 * 10 + digitVal m2
        let d := digitVal d1 * 10 + digitVal d2
        if 1 ≤ m && m ≤ 12 && 1 ≤ d && d ≤ daysInMonth y m then
          some ⟨y, m, d⟩
        else none
      else none
  | _ => none

/-- Day number of a civil date (days since 1970-01-01, the standard
era/year-of-era formula); strictly monotone in calendar order. -/
def dayNum (gd : GoDate) : Int :=
  let y : Int := if gd.month ≤ 2 then (gd.year : Int) - 1 else (gd.year : Int)
  let m : Int := (gd.month : Int)
  let d : Int := (gd.day : Int)
  let era : Int := Int.fdiv y 400
  let yoe : Int := y - era * 400
  let mp : Int := if 2 < m then m - 3 else m + 9
  let doy : Int := Int.ediv (153 * mp + 2) 5 + d - 1
  let doe : Int := yoe * 365 + Int.ediv yoe 4 - Int.ediv yoe 100 + doy
  era * 146097 + doe - 719468

def secPerDay : Int := 86400

/-- Instant (seconds) of midnight at the start of a date. -/
def dateInstant (gd : GoDate) : Int := secPerDay * dayNum gd

/-- Embedding of `validateDates` (`domain/invoice.go`).  `nowTrunc` is
`time.Now().Truncate(24*time.Hour)`, the current instant rounded down to a
day boundary. -/
def validateDates (nowTrunc : Int) (issueDateStr dueDateStr : String) :
    Except String String :=
  match parseDate issueDateStr with
  | none => .error "invalid issue date format"
  | some issueD =>
    match parseDate dueDateStr with
    | none => .error "invalid due date format"
    | some dueD =>
      if dateInstant issueD < nowTrunc then .error "issue date cannot be in the past"
      else if dateInstant dueD < dateInstant issueD then
        .error "issue date cannot be after due date"
      else if dateInstant dueD < nowTrunc then .error "due date cannot be in the past"
      else .ok "Dates are valid"

/-- Embedding of `NewInvoice` (`domain/invoice.go`).  `now` stands for
`time.Now()` and `newId` for the generated invoice identifier, both passed
explicitly since they are environment effects in Go.  The final composite
literal of the source omits the `Customer` and `Sender` fields, so the
constructed invoice carries their Go zero values. -/
def NewInvoice (now : Int) (newId : String)
    (userID invoiceNumber billingCurrency : String) (discount : ℚ)
    (issueDate dueDate : String) (items : List Item)
    (paymentInfo : PaymentInformation) (customer : CustomerDetails)
    (sender : SenderDetails) : Except String Invoice :=
  if invoiceNumber == "" then .error "invoice number cannot be empty"
  else if billingCurrency == "" then .error "billing currency cannot be empty"
  else if discount < 0 ∨ 100 < discount then
    .error "discount must be between 0 and 100"
  else if items.isEmpty then .error "invoice must have at least one item"
  else match validateDetails customer.name customer.phone customer.email customer.address with
  | some e => .error ("invalid customer details: " ++ e)
  | none =>
    match validateDetails sender.name sender.phone sender.email sender.address with
    | some e => .error ("invalid sender details: " ++ e)
    | none =>
      match items.findSome? validateItem with
      | some e => .error e
      | none =>
        match validateDates (secPerDay * Int.ediv now secPerDay) issueDate dueDate with
        | .error e => .error e
        | .ok _ =>
          match validatePaymentInfo paymentInfo with
          | some e => .error e
          | none =>
            .ok { invoiceID := newId
                , invoiceNumber := invoiceNumber
                , issueDate := issueDate
                , dueDate := dueDate
                , billingCurrency := billingCurrency
                , discount := discount
                , totalAmountDue := calculateTotalAmount items discount
                , notes := ""
                , createdAt := now
                , updatedAt := now
                , paymentInfo := paymentInfo
                , items := items
                , customer := { name := "", phone := "", email := "", address := "" }
                , sender := { name := "", phone := "", email := "", address := "" } }

/-- Embedding of the method `(*Invoice).AddItem` (`domain/invoice.go`). -/
def AddItem (now : Int) (i : Invoice) (item : Item) : Except String Invoice :=
  match validateItem item with
  | some e => .error e
  | none =>
    let items := i.items ++ [item]
    .ok { i with items := items,
                 totalAmountDue := calculateTotalAmount items i.discount,
                 updatedAt := now }

/-- Embedding of the method `(*Invoice).UpdateDiscount` (`domain/invoice.go`). -/
def UpdateDiscount (now : Int) (i : Invoice) (discount : ℚ) : Except String Invoice :=
  if discount < 0 ∨ 100 < discount then .error "discount must be between 0 and 100"
  else .ok { i with discount := discount,
                    totalAmountDue := calculateTotalAmount i.items discount,
                    updatedAt := now }

/-- Embedding of the method `(*Invoice).UpdatePaymentInfo` (`domain/invoice.go`). -/
def UpdatePaymentInfo (now : Int) (i : Invoice) (p : PaymentInformation) :
    Except String Invoice :=
  match validatePaymentInfo p with
  | some e => .error e
  | none => .ok { i with paymentInfo := p, updatedAt := now }

/-! ## Domain model: `domain/user.go` -/

structure User where
  id : String
  firstName : String
  lastName : String
  email : String
  password : String
  phoneNumber : String
  createdAt : Int
  updatedAt : Int
  token : String
deriving DecidableEq, Repr

def emptyUser : User :=
  { id := "", firstName := "", lastName := "", email := "", password := ""
  , phoneNumber := "", createdAt := 0, updatedAt := 0, token := "" }

/-- Model of `gonull.Nullable[string]`. -/
structure GoNullString where
  val : String
  valid : Bool
deriving DecidableEq, Repr

/-- Model of `gonull.NewNullable`: the wrapped value is marked valid. -/
def gonullNewNullable (v : String) : GoNullString := ⟨v, true⟩

/-- Embedding of `validateFields` (`domain/user.go`); `String.trim` models
`strings.TrimSpace`. -/
def validateFields (firstName lastName email : String) (phoneNumber : GoNullString) :
    Option String :=
  if firstName.trim == "" then some "invalid first name: cannot be empty"
  else if lastName.trim == "" then some "invalid last name: cannot be empty"
  else if email.trim == "" then some "invalid email: cannot be empty, provide a valid email"
  else if phoneNumber.valid && phoneNumber.val.trim == "" then
    some "invalid phone number: phone number cannot be empty"
  else none

/-- Embedding of `NewUser` (`domain/user.go`).  `genId` stands for the
generated object identifier.  On either validation failure the source
returns the empty `User` literal together with a nil error. -/
def NewUser (genId : String) (firstName lastName email password phoneNumber : String) :
    User × Option String :=
  if (validateEmail email).isSome then (emptyUser, none)
  else if (validateFields firstName lastName email (gonullNewNullable phoneNumber)).isSome then
    (emptyUser, none)
  else
    ({ id := genId
     , firstName := firstName
     , lastName := lastName
     , email := email.toLower
     , password := password
     , phoneNumber := phoneNumber
     , createdAt := 0
     , updatedAt := 0
     , token := "" }, none)

/-! ## Persistence model: `db/repository/invoice.go`

The database `numeris_book` is modelled explicitly.  `UserData(db, name)`
and `InvoiceData(db, name)` both address a named collection of that
database; user documents live in `"user"`, modelled as the `users` field,
and the standalone invoice collections are addressed by name (`"invoice"`
in `AddNewInvoice` and `UpdateInvoiceBeforeDueDate`; `"invoices"` in
`UpdateInvoiceStatusToIssued` and `DeleteInvoice`). -/

/-- Invoice document as stored in MongoDB: the serialized `domain.Invoice`
payload plus the document fields that only filters and updates touch —
`status` (never part of the serialized struct, which has no status field),
the `issue_date` stamp written by the embedded-update of
`UpdateInvoiceStatusToIssued`, and the `issued_date` stamp written by its
standalone-collection update. -/
structure StoredInvoice where
  invoiceId : String
  payload : Invoice
  status : Option String
  issueStamp : Option Int
  issuedStamp : Option Int
deriving DecidableEq, Repr

/-- Serialization of a fresh `domain.Invoice` into a stored document. -/
def storedOfInvoice (inv : Invoice) : StoredInvoice :=
  { invoiceId := inv.invoiceID, payload := inv
  , status := none, issueStamp := none, issuedStamp := none }

/-- Document of the `user` collection: the serialized `domain.User` plus the
embedded `invoices` array. -/
structure UserDoc where
  user : User
  invoices : List StoredInvoice
deriving DecidableEq, Repr

/-- State of the `numeris_book` database: the `user` collection and the
standalone collections addressed by name (absent names denote empty
collections, as in MongoDB). -/
structure DataBase where
  users : List UserDoc
  colls : List (String × List StoredInvoice)
deriving DecidableEq, Repr

def getColl (db : DataBase) (name : String) : List StoredInvoice :=
  match db.colls.find? (fun p => p.1 == name) with
  | some p => p.2
  | none => []

def setColl (db : DataBase) (name : String) (docs : List StoredInvoice) : DataBase :=
  if db.colls.any (fun p => p.1 == name) then
    { db with colls := db.colls.map (fun p => if p.1 == name then (name, docs) else p) }
  else
    { db with colls := db.colls ++ [(name, docs)] }

/-- Replace the first list element satisfying `p` by its image under `f`
(the semantics of `UpdateOne` and of the positional array update). -/
def replaceFirst (l : List α) (p : α → Bool) (f : α → α) : List α :=
  match l with
  | [] => []
  | x :: xs => if p x then f x :: xs else x :: replaceFirst xs p f

/-- Remove the first list element satisfying `p` (the semantics of `DeleteOne`). -/
def removeFirst (l : List α) (p : α → Bool) : List α :=
  match l with
  | [] => []
  | x :: xs => if p x then xs else x :: removeFirst xs p

/-- `UpdateOne` on the `user` collection: first component is whether a
document matched (`MatchedCount` positive), second the resulting state. -/
def mongoUpdateOneUsers (db : DataBase) (p : UserDoc → Bool) (f : UserDoc → UserDoc) :
    Bool × DataBase :=
  (db.users.any p, { db with users := replaceFirst db.users p f })

/-- `UpdateOne` on a standalone collection. -/
def mongoUpdateOneColl (db : DataBase) (name : String) (p : StoredInvoice → Bool)
    (f : StoredInvoice → StoredInvoice) : Bool × DataBase :=
  ((getColl db name).any p, setColl db name (replaceFirst (getColl db name) p f))

/-- Filter document `{_id: userID, "invoices.invoice_id": invoiceID}`: the
user document with that id holding an embedded invoice with that invoice id. -/
def userHasInvoice (userID invoiceID : String) (u : UserDoc) : Bool :=
  u.user.id == userID && u.invoices.any (fun s => s.invoiceId == invoiceID)

/-- Outcome of a repository operation together with the observable database
state afterwards: `ok` commits, `fail` returns a Go error (any transaction
aborted, so the pre-state is observable), `crashed` models a Go `panic`,
`exited` models `log.Fatalf` (process exit). -/
inductive RepoOutcome where
  | ok (db : DataBase)
  | fail (msg : String) (db : DataBase)
  | crashed (msg : String) (db : DataBase)
  | exited (msg : String) (db : DataBase)
deriving DecidableEq, Repr

/-- Embedding of `AddNewInvoice` (`db/repository/invoice.go`).  The two
fallible writes get explicit failure injections: `pushErr` makes the
`$push` update of the user document fail (the source then calls `panic`
with a fixed message, inside the transaction callback), `insertErr e`
makes the `InsertOne` into the standalone `"invoice"` collection fail with
driver error `e` (the callback then returns an error, the transaction is
aborted and the wrapped message is returned). -/
def AddNewInvoice (db : DataBase) (userID : String) (invoice : Invoice)
    (pushErr : Bool) (insertErr : Option String) : RepoOutcome :=
  if pushErr then .crashed "error while inserting new invoice" db
  else
    let db1 := { db with
      users := replaceFirst db.users (fun u => u.user.id == userID)
        (fun u => { u with invoices := u.invoices ++ [storedOfInvoice invoice] }) }
    match insertErr with
    | some e => .fail ("transaction failed: error inserting into invoices: " ++ e) db
    | none => .ok (setColl db1 "invoice" (getColl db1 "invoice" ++ [storedOfInvoice invoice]))

/-- Embedding of `FindUserInvoiceByID` (`db/repository/invoice.go`): point
lookup with projection of the first embedded invoice matching the filter. -/
def FindUserInvoiceByID (db : DataBase) (userID invoiceID : String) :
    Except String StoredInvoice :=
  match db.users.find? (userHasInvoice userID invoiceID) with
  | none => .error ("invoice not found for userID " ++ userID ++ " and invoiceID " ++ invoiceID)
  | some u =>
    match u.invoices.find? (fun s => s.invoiceId == invoiceID) with
    | some s => .ok s
    | none => .error "invoice not found in user document"

/-- Action of the embedded positional update `$set invoices.$ :=
updatedInvoice` on the matched user document: the first embedded element
with the given invoice id is replaced wholesale by the serialization of the
new invoice. -/
def embReplaceElem (updatedInvoice : Invoice) (invoiceID : String) (u : UserDoc) : UserDoc :=
  let invs := replaceFirst u.invoices (fun s => s.invoiceId == invoiceID)
    (fun _ => storedOfInvoice updatedInvoice)
  { u with invoices := invs }

/-- Action of `$set updatedInvoice` on a standalone document: every
serialized field is overwritten, the extra document fields survive. -/
def stdReplaceElem (updatedInvoice : Invoice) (s : StoredInvoice) : StoredInvoice :=
  { s with invoiceId := updatedInvoice.invoiceID, payload := updatedInvoice }

/-- Embedding of `UpdateInvoiceBeforeDueDate` (`db/repository/invoice.go`).
`now` is `time.Now()`.  The fetched invoice's dates are parsed (a parse
failure hits `log.Fatalf`); the edit is rejected when the issue date is
before now or now is after the due date; otherwise the embedded copy is
replaced positionally and the standalone `"invoice"` copy is overwritten by
`$set` with the new invoice, each update aborting the transaction when it
matches no document. -/
def UpdateInvoiceBeforeDueDate (db : DataBase) (userID invoiceID : String)
    (updatedInvoice : Invoice) (now : Int) : RepoOutcome :=
  match FindUserInvoiceByID db userID invoiceID with
  | .error e => .fail ("error fetching current invoice: " ++ e) db
  | .ok currentInvoice =>
    match parseDate currentInvoice.payload.issueDate with
    | none => .exited "invalid issue date format" db
    | some issueD =>
      match parseDate currentInvoice.payload.dueDate with
      | none => .exited "invalid due date format" db
      | some dueD =>
        if dateInstant issueD < now ∨ dateInstant dueD < now then
          .fail "invoice cannot be updated: it has been issued or the due date has passed" db
        else
          let r1 := mongoUpdateOneUsers db (userHasInvoice userID invoiceID)
            (embReplaceElem updatedInvoice invoiceID)
          if !r1.1 then
            .fail ("no invoice found with ID " ++ invoiceID ++ " for user " ++ userID) db
          else
            let r2 := mongoUpdateOneColl r1.2 "invoice" (fun s => s.invoiceId == invoiceID)
              (stdReplaceElem updatedInvoice)
            if !r2.1 then
              .fail ("no invoice found with ID " ++ invoiceID ++ " in invoice collection") db
            else .ok r2.2

/-- Statuses accepted by the issue transition filter. -/
def readyToIssue (st : Option String) : Bool :=
  st == some "pending" || st == some "draft" || st == some "overdue"

/-- Embedding of `UpdateInvoiceStatusToIssued` (`db/repository/invoice.go`).
The embedded update filters on invoice id and status in
{pending, draft, overdue} and sets the element's status to `"issued"` and
its `issue_date` stamp to now; the second update addresses the standalone
collection named `"invoices"` with the same status filter and sets only an
`issued_date` stamp.  Neither matched count is inspected, so a zero-match
update is a silent no-op and the transaction commits. -/
def UpdateInvoiceStatusToIssued (db : DataBase) (userID invoiceID : String)
    (now : Int) : RepoOutcome :=
  let elemMatch := fun (s : StoredInvoice) => s.invoiceId == invoiceID && readyToIssue s.status
  let issueElem := fun (u : UserDoc) =>
    let invs := replaceFirst u.invoices elemMatch
      (fun s => { s with status := some "issued", issueStamp := some now })
    { u with invoices := invs }
  let r1 := mongoUpdateOneUsers db
    (fun u => u.user.id == userID && u.invoices.any elemMatch) issueElem
  let r2 := mongoUpdateOneColl r1.2 "invoices"
    (fun s => s.invoiceId == invoiceID && readyToIssue s.status)
    (fun s => { s with issuedStamp := some now })
  .ok r2.2

/-- Embedding of `DeleteInvoice` (`db/repository/invoice.go`).  The first
step calls `DeleteOne` on the `user` collection with filter
`{_id: userID, "invoices.invoice_id": invoiceID}` — deleting the first
matching user document — and the second deletes the first document with the
given invoice id from the standalone collection named `"invoices"`. -/
def DeleteInvoice (db : DataBase) (userID invoiceID : String) : RepoOutcome :=
  let db1 := { db with users := removeFirst db.users (userHasInvoice userID invoiceID) }
  let db2 := setColl db1 "invoices"
    (removeFirst (getColl db1 "invoices") (fun s => s.invoiceId == invoiceID))
  .ok db2

/-- Result of the `$group` stage of the `InvoiceStatSummary` pipeline. -/
structure StatGroup where
  totalPaid : ℚ
  totalOverdue : ℚ
  totalDraft : ℚ
deriving DecidableEq, Repr

/-- Embedding of the aggregation pipeline of `InvoiceStatSummary`
(`db/repository/invoice.go`): match the user document by id, unwind the
embedded invoices, match `status == "paid"`, then group-sum the paid total
and the conditional overdue/draft totals.  `dueLtNow` abstracts the
`$lt`-comparison of the stored due date against `time.Now()`; the result
does not depend on it. -/
def InvoiceStatSummary (dueLtNow : StoredInvoice → Bool) (db : DataBase)
    (userID : String) : StatGroup :=
  let unwound := ((db.users.filter (fun u => u.user.id == userID)).map
    (fun u => u.invoices)).flatten
  let matched := unwound.filter (fun s => s.status == some "paid")
  { totalPaid := (matched.map (fun s => s.payload.totalAmountDue)).sum
  , totalOverdue := (matched.map (fun s =>
      if s.status == some "overdue" && dueLtNow s then s.payload.totalAmountDue else 0)).sum
  , totalDraft := (matched.map (fun s =>
      if s.status == some "draft" then s.payload.totalAmountDue else 0)).sum }

/-! ## Credential service: `db/service/passwordhasher.go`

The bcrypt library itself is external; it is modelled from its contract: a
generated hash is a recognizable encoding of the password (the salt is
abstracted away, the work factor fixed), and comparing first parses the
alleged hash — a string that is not a bcrypt hash yields the library's
invalid-hash error, a parsed hash that does not match yields
`ErrMismatchedHashAndPassword`. -/

def bcryptMagic : String := "$2a$10$"

def bcryptMismatchErr : String :=
  "crypto/bcrypt: hashedPassword is not the hash of the given password"

def bcryptInvalidHashErr : String :=
  "crypto/bcrypt: hashedSecret too short to be a bcrypted password"

/-- Model of `bcrypt.GenerateFromPassword` (always succeeds). -/
def bcryptGenerateFromPassword (password : String) : Except String String :=
  .ok (bcryptMagic ++ password)

/-- Model of `bcrypt.CompareHashAndPassword hashedPassword password`. -/
def bcryptCompareHashAndPassword (hashedPassword password : String) : Option String :=
  if !(hashedPassword.startsWith bcryptMagic) then some bcryptInvalidHashErr
  else if hashedPassword.drop bcryptMagic.length == password then none
  else some bcryptMismatchErr

def ErrInvalidLoginDetails : String := "invalid login details"

def ErrUnMatchedPassword : String := "invalid input password"

/-- Embedding of `CreateHash` (`db/service/passwordhasher.go`). -/
def CreateHash (password : String) : Except String String :=
  if password == "" then .error "invalid input password from user"
  else
    match bcryptGenerateFromPassword password with
    | .error _ => .error "unable to generate hash key from the password"
    | .ok hashedString => .ok hashedString

/-- Embedding of `VerifyPassword` (`db/service/passwordhasher.go`).  The
source calls `bcrypt.CompareHashAndPassword([]byte(password), []byte(hashPassword))`,
passing the plaintext where the library expects the hash; the call below
reproduces that argument order. -/
def VerifyPassword (hashPassword password : String) : Bool × Option String :=
  if password == "" || hashPassword == "" then (false, some ErrInvalidLoginDetails)
  else
    match bcryptCompareHashAndPassword password hashPassword with
    | some e => if e == bcryptMismatchErr then (false, some ErrUnMatchedPassword)
                else (false, some e)
    | none => (true, none)

/-! ## Concrete fixtures used by witnesses and counterexamples -/

def sampleItems : List Item :=
  [⟨"Service A", 3, 10, 30⟩, ⟨"Service B", 1, 50, 50⟩]

def samplePayment : PaymentInformation :=
  ⟨"Acme Ltd", "01234567890", "8765432", "First Bank"⟩

/-- Payment information with non-empty account and routing numbers shorter
than the minimum lengths 11 and 7 named by the source's comparisons. -/
def shortPayment : PaymentInformation := ⟨"Acme Ltd", "123", "45", "First Bank"⟩

def sampleCustomer : CustomerDetails :=
  ⟨"Ada Lovelace", "08012345678", "ada@example.com", "1 Main Street"⟩

def sampleSender : SenderDetails :=
  ⟨"Grace Hopper", "08087654321", "grace@example.com", "2 Side Street"⟩

/-- An instant one hour past midnight, 2026-10-11. -/
def sampleNow : Int := dateInstant ⟨2026, 10, 11⟩ + 3600

/-- Invoice record fixture with the given identifier and dates. -/
def mkInvoice (iid iss due : String) : Invoice :=
  { invoiceID := iid, invoiceNumber := "N-" ++ iid, issueDate := iss, dueDate := due
  , billingCurrency := "USD", discount := 10, totalAmountDue := 72, notes := ""
  , createdAt := 0, updatedAt := 0, paymentInfo := samplePayment
  , items := sampleItems
  , customer := ⟨"", "", "", ""⟩, sender := ⟨"", "", "", ""⟩ }

def userU1 : User :=
  { id := "u1", firstName := "Ada", lastName := "L", email := "a@b.co", password := "x"
  , phoneNumber := "080", createdAt := 0, updatedAt := 0, token := "" }

def invA : Invoice := mkInvoice "i1" "2026-10-12" "2026-11-12"

def invB : Invoice := mkInvoice "i2" "2026-10-12" "2026-11-12"

def sA : StoredInvoice := storedOfInvoice invA

def sB : StoredInvoice := storedOfInvoice invB

def sAdraft : StoredInvoice := { sA with status := some "draft" }

/-- The embedded copy as the issue transition rewrites it at instant 1000. -/
def sAissued1000 : StoredInvoice :=
  { sAdraft with status := some "issued", issueStamp := some 1000 }

/-- Database holding one user who owns invoice `i1`, with the standalone
copy in the `"invoice"` collection (where `AddNewInvoice` inserts). -/
def db0 : DataBase := { users := [⟨userU1, [sA]⟩], colls := [("invoice", [sA])] }

/-- Like `db0` but the invoice carries status `"draft"` in both places. -/
def dbC2 : DataBase :=
  { users := [⟨userU1, [sAdraft]⟩], colls := [("invoice", [sAdraft])] }

/-- Database where user `u1` owns two invoices `i1`, `i2`, with the
standalone copy of `i1` in the `"invoice"` collection. -/
def dbC3 : DataBase := { users := [⟨userU1, [sA, sB]⟩], colls := [("invoice", [sA])] }

/-- The invoice `i1` with its content edited (new issue date). -/
def updInv : Invoice := mkInvoice "i1" "2026-10-13" "2026-11-12"

/-! ## Helper lemmas -/

theorem replaceFirst_find? {α} (p : α → Bool) (f : α → α)
    (hf : ∀ a, p a = true → p (f a) = true) :
    ∀ l : List α, (replaceFirst l p f).find? p = (l.find? p).map f := by
  intro l
  induction l with
  | nil => rfl
  | cons x xs ih =>
    by_cases hx : p x = true
    · rw [replaceFirst, if_pos hx, List.find?_cons_of_pos _ (hf x hx),
        List.find?_cons_of_pos _ hx, Option.map_some']
    · have hx0 : p x = false := by simpa using hx
      rw [replaceFirst, if_neg (by simp [hx0]), List.find?_cons_of_neg _ (by simp [hx0]),
        List.find?_cons_of_neg _ (by simp [hx0]), ih]

theorem replaceFirst_any {α} (p : α → Bool) (f : α → α)
    (hf : ∀ a, p a = true → p (f a) = true) :
    ∀ l : List α, (replaceFirst l p f).any p = l.any p := by
  intro l
  induction l with
  | nil => rfl
  | cons x xs ih =>
    by_cases hx : p x = true
    · rw [replaceFirst, if_pos hx]
      simp [List.any_cons, hx, hf x hx]
    · have hx0 : p x = false := by simpa using hx
      rw [replaceFirst, if_neg (by simp [hx0])]
      simp [List.any_cons, hx0, ih]

theorem any_of_find? {α} {p : α → Bool} {a : α} :
    ∀ {l : List α}, l.find? p = some a → l.any p = true := by
  intro l
  induction l with
  | nil => intro h; cases h
  | cons x xs ih =>
    intro h
    by_cases hx : p x = true
    · simp [List.any_cons, hx]
    · have hx0 : p x = false := by simpa using hx
      rw [List.find?_cons_of_neg _ (by simp [hx0])] at h
      simp [List.any_cons, ih h]

theorem setColl_users (db : DataBase) (name : String) (docs : List StoredInvoice) :
    (setColl db name docs).users = db.users := by
  unfold setColl; split <;> rfl

theorem find?_overwrite (n : String) (docs : List StoredInvoice) :
    ∀ l : List (String × List StoredInvoice), l.any (fun p => p.1 == n) = true →
      (l.map (fun p => if p.1 == n then (n, docs) else p)).find? (fun p => p.1 == n) =
        some (n, docs) := by
  intro l
  induction l with
  | nil => intro h; cases h
  | cons x xs ih =>
    intro h
    by_cases hx : x.1 == n
    · rw [List.map_cons, if_pos hx]
      exact List.find?_cons_of_pos _ (by simp)
    · have hx0 : (x.1 == n) = false := by simpa using hx
      rw [List.map_cons, if_neg (by simp [hx0]), List.find?_cons_of_neg _ (by simp [hx0])]
      exact ih (by simpa [List.any_cons, hx0] using h)

theorem find?_append_none {α} (p : α → Bool) (y : α) (hy : p y = true) :
    ∀ l : List α, l.any p = false → (l ++ [y]).find? p = some y := by
  intro l
  induction l with
  | nil => intro _; exact List.find?_cons_of_pos _ hy
  | cons x xs ih =>
    intro h
    have hx : p x = false := by
      by_contra hx
      simp [List.any_cons, eq_true_of_ne_false hx] at h
    rw [List.cons_append, List.find?_cons_of_neg _ (by simp [hx])]
    exact ih (by simpa [List.any_cons, hx] using h)

theorem getColl_setColl (db : DataBase) (name : String) (docs : List StoredInvoice) :
    getColl (setColl db name docs) name = docs := by
  unfold setColl
  by_cases h : db.colls.any (fun p => p.1 == name) = true
  · rw [if_pos h]
    unfold getColl
    rw [find?_overwrite name docs db.colls h]
  · have h0 : db.colls.any (fun p => p.1 == name) = false := Bool.eq_false_iff.mpr h
    rw [if_neg (by simp only [h0]; exact Bool.false_ne_true)]
    unfold getColl
    rw [find?_append_none _ _ (by simp) db.colls h0]

theorem foldl_add_eq_sum {α} (f : α → ℚ) :
    ∀ (l : List α) (a : ℚ), l.foldl (fun t x => t + f x) a = a + (l.map f).sum := by
  intro l
  induction l with
  | nil => intro a; simp
  | cons x xs ih => intro a; simp [List.foldl_cons, ih, add_assoc]

theorem calculateTotalAmount_eq (items : List Item) (d : ℚ) :
    calculateTotalAmount items d =
      ((items.map fun it => (it.quantity : ℚ) * it.unitPrice).sum) * (1 - d / 100) := by
  unfold calculateTotalAmount
  rw [foldl_add_eq_sum, zero_add]

/-! ## Claims -/

/-- C4: for every invoice accepted by `NewInvoice`, and after every
successful `AddItem` or `UpdateDiscount` mutation, the stored
`totalAmountDue` equals the sum over items of quantity times unit price,
multiplied by `1 - discount/100`. -/
theorem totalAmountDue_invariant :
    (∀ now newId userID invoiceNumber billingCurrency (discount : ℚ) issueDate dueDate
        items paymentInfo customer sender inv,
      NewInvoice now newId userID invoiceNumber billingCurrency discount issueDate dueDate
          items paymentInfo customer sender = .ok inv →
      inv.totalAmountDue =
        ((inv.items.map fun it => (it.quantity : ℚ) * it.unitPrice).sum) *
          (1 - inv.discount / 100))
    ∧ (∀ now i item inv, AddItem now i item = .ok inv →
      inv.totalAmountDue =
        ((inv.items.map fun it => (it.quantity : ℚ) * it.unitPrice).sum) *
          (1 - inv.discount / 100))
    ∧ (∀ now i d inv, UpdateDiscount now i d = .ok inv →
      inv.totalAmountDue =
        ((inv.items.map fun it => (it.quantity : ℚ) * it.unitPrice).sum) *
          (1 - inv.discount / 100)) := by
  refine ⟨?_, ?_, ?_⟩
  · intro now newId userID invoiceNumber billingCurrency discount issueDate dueDate
      items paymentInfo customer sender inv h
    unfold NewInvoice at h
    repeat' split at h
    all_goals first
      | exact Except.noConfusion h
      | (injection h with h; subst h; exact calculateTotalAmount_eq items discount)
  · intro now i item inv h
    unfold AddItem at h
    repeat' split at h
    all_goals first
      | exact Except.noConfusion h
      | (injection h with h; subst h; exact calculateTotalAmount_eq (i.items ++ [item]) i.discount)
  · intro now i d inv h
    unfold UpdateDiscount at h
    repeat' split at h
    all_goals first
      | exact Except.noConfusion h
      | (injection h with h; subst h; exact calculateTotalAmount_eq i.items d)

def invADisc10 : Invoice :=
  { invA with discount := 10,
              totalAmountDue := calculateTotalAmount sampleItems 10,
              updatedAt := 0 }

/-- C4 witness: the spec's own example — items (qty 3 at 10, qty 1 at 50)
and discount 10 give a total amount due of 72. -/
theorem totalAmountDue_invariant_witness :
    ∃ inv, UpdateDiscount 0 invA 10 = Except.ok inv ∧
      inv.totalAmountDue =
        ((inv.items.map fun it => (it.quantity : ℚ) * it.unitPrice).sum) *
          (1 - inv.discount / 100) ∧
      inv.totalAmountDue = 72 := by
  have h : UpdateDiscount 0 invA 10 = Except.ok invADisc10 := rfl
  refine ⟨invADisc10, h, totalAmountDue_invariant.2.2 0 invA 10 invADisc10 h, ?_⟩
  show calculateTotalAmount sampleItems 10 = 72
  rw [calculateTotalAmount_eq]
  norm_num [sampleItems]

/-- C7: the `InvoiceStatSummary` aggregation restricts to invoices with
status `"paid"` before grouping, so the grouped overdue and draft totals
are zero for every database state, user, and due-date comparison. -/
theorem invoiceStatSummary_overdue_draft_zero
    (dueLtNow : StoredInvoice → Bool) (db : DataBase) (userID : String) :
    (InvoiceStatSummary dueLtNow db userID).totalOverdue = 0 ∧
    (InvoiceStatSummary dueLtNow db userID).totalDraft = 0 := by
  constructor <;>
  · apply List.sum_eq_zero
    intro x hx
    simp only [List.mem_map] at hx
    obtain ⟨s, hs, rfl⟩ := hx
    rw [List.mem_filter] at hs
    have hp : s.status = some "paid" := by
      have := hs.2
      rwa [beq_iff_eq] at this
    simp [hp]

/-- C8: the account/routing number length comparisons of
`validatePaymentInfo` are conjoined with the emptiness checks, so a
non-empty account number of length 3 and routing number of length 2 pass
validation, and `UpdatePaymentInfo` and `NewInvoice` accept them. -/
theorem validatePaymentInfo_accepts_short_numbers :
    validatePaymentInfo shortPayment = none ∧
    shortPayment.accountNumber ≠ "" ∧ shortPayment.accountNumber.length < 11 ∧
    shortPayment.routingNumber ≠ "" ∧ shortPayment.routingNumber.length < 7 ∧
    UpdatePaymentInfo 0 invA shortPayment =
      .ok { invA with paymentInfo := shortPayment, updatedAt := 0 } ∧
    (NewInvoice sampleNow "INV-y" "u1" "N-009" "USD" 10 "2026-10-12" "2026-11-12"
      sampleItems shortPayment sampleCustomer sampleSender).isOk = true :=
  ⟨rfl, by decide, by decide, by decide, by decide, rfl, rfl⟩

/-- C5: `VerifyPassword` passes the plaintext where the bcrypt comparison
expects the hash, so verifying the correct password against its own
freshly created hash returns false with the library's invalid-hash error
(which is not the mismatch error the claim expects). -/
theorem verifyPassword_roundtrip_fails_swapped_args :
    CreateHash "secret" = .ok "$2a$10$secret" ∧
    VerifyPassword "$2a$10$secret" "secret" = (false, some bcryptInvalidHashErr) ∧
    bcryptInvalidHashErr ≠ ErrUnMatchedPassword ∧
    VerifyPassword "$2a$10$secret" "wrong" = (false, some bcryptInvalidHashErr) :=
  ⟨rfl, rfl, by decide, rfl⟩

/-- C6 counterexample: when the append of the invoice to the embedded list
fails, `AddNewInvoice` panics with a fixed message instead of returning a
`PersistenceError`. -/
theorem addNewInvoice_first_write_failure_panics :
    AddNewInvoice db0 "u1" invB true none =
      .crashed "error while inserting new invoice" db0 := rfl

/-- C6 amended: if the insert into the standalone collection fails,
`AddNewInvoice` returns a wrapped persistence error and the aborted
transaction leaves the database unchanged (the invoice observable in
neither collection); if the append to the embedded list fails, the call
panics rather than returning an error — the transaction never commits, so
the database is likewise unchanged. -/
theorem addNewInvoice_failure_behavior (db : DataBase) (userID : String)
    (invoice : Invoice) (e : String) :
    AddNewInvoice db userID invoice false (some e) =
      .fail ("transaction failed: error inserting into invoices: " ++ e) db ∧
    AddNewInvoice db userID invoice true none =
      .crashed "error while inserting new invoice" db ∧
    AddNewInvoice db userID invoice true (some e) =
      .crashed "error while inserting new invoice" db :=
  ⟨rfl, rfl, rfl⟩

/-- C2: on a draft invoice present in both places,
`UpdateInvoiceStatusToIssued` stamps the embedded copy to status
`"issued"` with a new issue date, but the standalone copy in the
`"invoice"` collection is left untouched (still `"draft"`, no stamp): the
second update addresses a collection named `"invoices"` and would set only
an `issued_date` field there, never the status. -/
theorem updateStatusToIssued_standalone_copy_untouched :
    UpdateInvoiceStatusToIssued dbC2 "u1" "i1" 1000 =
      .ok { users := [⟨userU1, [sAissued1000]⟩]
          , colls := [("invoice", [sAdraft]), ("invoices", [])] } ∧
    sAdraft.status = some "draft" ∧ sAdraft.issueStamp = none ∧
    sAdraft.issuedStamp = none :=
  ⟨rfl, rfl, rfl, rfl⟩

/-- C3: `DeleteInvoice` issues `DeleteOne` on the `user` collection, so
deleting invoice `i1` removes the entire user document (including the
unrelated invoice `i2`), while the standalone copy of `i1` in the
`"invoice"` collection survives (the second delete addresses the
collection named `"invoices"`). -/
theorem deleteInvoice_removes_user_document_not_invoice :
    DeleteInvoice dbC3 "u1" "i1" =
      .ok { users := [], colls := [("invoice", [sA]), ("invoices", [])] } ∧
    dbC3.users = [⟨userU1, [sA, sB]⟩] :=
  ⟨rfl, rfl⟩

/-- C10: whenever `NewUser`'s validation fails — the email does not match
the format expression, or a trimmed field is empty — the constructor
returns the zero-value `User` together with a nil error. -/
theorem newUser_validation_failure_silent
    (genId firstName lastName email password phoneNumber : String)
    (h : (validateEmail email).isSome = true ∨
      (validateFields firstName lastName email (gonullNewNullable phoneNumber)).isSome = true) :
    NewUser genId firstName lastName email password phoneNumber = (emptyUser, none) := by
  unfold NewUser
  by_cases h1 : (validateEmail email).isSome = true
  · rw [if_pos h1]
  · rcases h with h | h
    · exact absurd h h1
    · rw [if_neg h1, if_pos h]

/-- C10 witness: a sign-up with a malformed email address yields the
zero-value user and no error. -/
theorem newUser_validation_failure_silent_witness :
    NewUser "gid" "Ada" "Lovelace" "not-an-email" "pw123456" "080" = (emptyUser, none) :=
  newUser_validation_failure_silent "gid" "Ada" "Lovelace" "not-an-email" "pw123456" "080"
    (Or.inl (by decide))

/-- C9: every invoice returned by `NewInvoice` carries zero-valued
`customer` and `sender` fields, whatever customer and sender details were
passed: the composite literal of the source never copies them. -/
theorem newInvoice_customer_sender_zero
    (now : Int) (newId userID invoiceNumber billingCurrency : String) (discount : ℚ)
    (issueDate dueDate : String) (items : List Item) (paymentInfo : PaymentInformation)
    (customer : CustomerDetails) (sender : SenderDetails) (inv : Invoice)
    (h : NewInvoice now newId userID invoiceNumber billingCurrency discount issueDate dueDate
      items paymentInfo customer sender = .ok inv) :
    inv.customer = ⟨"", "", "", ""⟩ ∧ inv.sender = ⟨"", "", "", ""⟩ := by
  unfold NewInvoice at h
  repeat' split at h
  all_goals first
    | exact Except.noConfusion h
    | (injection h with h; subst h; exact ⟨rfl, rfl⟩)

def newInvoiceSampleResult : Invoice :=
  { invoiceID := "INV-x", invoiceNumber := "N-001", issueDate := "2026-10-12"
  , dueDate := "2026-11-12", billingCurrency := "USD", discount := 10
  , totalAmountDue := calculateTotalAmount sampleItems 10, notes := ""
  , createdAt := sampleNow, updatedAt := sampleNow, paymentInfo := samplePayment
  , items := sampleItems, customer := ⟨"", "", "", ""⟩, sender := ⟨"", "", "", ""⟩ }

/-- C9 witness: a successful construction with non-empty customer and
sender details still returns empty customer and sender fields. -/
theorem newInvoice_customer_sender_zero_witness :
    ∃ inv, NewInvoice sampleNow "INV-x" "u1" "N-001" "USD" 10 "2026-10-12" "2026-11-12"
        sampleItems samplePayment sampleCustomer sampleSender = Except.ok inv ∧
      sampleCustomer.name ≠ "" ∧ sampleSender.name ≠ "" ∧
      inv.customer = ⟨"", "", "", ""⟩ ∧ inv.sender = ⟨"", "", "", ""⟩ := by
  have h : NewInvoice sampleNow "INV-x" "u1" "N-001" "USD" 10 "2026-10-12" "2026-11-12"
      sampleItems samplePayment sampleCustomer sampleSender =
      Except.ok newInvoiceSampleResult := rfl
  have hcs := newInvoice_customer_sender_zero sampleNow "INV-x" "u1" "N-001" "USD" 10
    "2026-10-12" "2026-11-12" sampleItems samplePayment sampleCustomer sampleSender
    newInvoiceSampleResult h
  exact ⟨newInvoiceSampleResult, h, by decide, by decide, hcs.1, hcs.2⟩

theorem getColl_setUsers (db : DataBase) (users : List UserDoc) (name : String) :
    getColl { db with users := users } name = getColl db name := rfl

/-- C1: with `now` strictly inside a day (not the midnight boundary
instant), `UpdateInvoiceBeforeDueDate` fails with the immutable-invoice
error — leaving the database unchanged — whenever the stored issue date is
on the day of `now` or earlier, or the stored due date (midnight) is
before `now`; and whenever the issue date is strictly in the future and
the due date has not passed, it succeeds and overwrites both the embedded
copy and the standalone `"invoice"`-collection copy with the new invoice. -/
theorem updateInvoiceBeforeDueDate_date_gate
    (db : DataBase) (userID invoiceID : String) (upd : Invoice) (now : Int)
    (cur : StoredInvoice) (di dd : GoDate)
    (hfind : FindUserInvoiceByID db userID invoiceID = .ok cur)
    (hdi : parseDate cur.payload.issueDate = some di)
    (hdd : parseDate cur.payload.dueDate = some dd)
    (hmid : now % secPerDay ≠ 0) :
    ((dayNum di ≤ now / secPerDay ∨ dateInstant dd < now) →
      UpdateInvoiceBeforeDueDate db userID invoiceID upd now =
        .fail "invoice cannot be updated: it has been issued or the due date has passed" db)
    ∧ (∀ sOld, now / secPerDay < dayNum di → now ≤ dateInstant dd →
        upd.invoiceID = invoiceID →
        (getColl db "invoice").find? (fun s => s.invoiceId == invoiceID) = some sOld →
        ∃ dbNew, UpdateInvoiceBeforeDueDate db userID invoiceID upd now = .ok dbNew ∧
          FindUserInvoiceByID dbNew userID invoiceID = .ok (storedOfInvoice upd) ∧
          (getColl dbNew "invoice").find? (fun s => s.invoiceId == invoiceID) =
            some (stdReplaceElem upd sOld)) := by
  have hfu : ∃ u, db.users.find? (userHasInvoice userID invoiceID) = some u ∧
      u.invoices.find? (fun s => s.invoiceId == invoiceID) = some cur := by
    unfold FindUserInvoiceByID at hfind
    cases h1 : db.users.find? (userHasInvoice userID invoiceID) with
    | none => simp only [h1] at hfind; exact Except.noConfusion hfind
    | some u =>
      simp only [h1] at hfind
      cases h2 : u.invoices.find? (fun s => s.invoiceId == invoiceID) with
      | none => simp only [h2] at hfind; exact Except.noConfusion hfind
      | some s =>
        simp only [h2, Except.ok.injEq] at hfind
        exact ⟨u, rfl, hfind ▸ h2⟩
  constructor
  · intro hcase
    have hcond : dateInstant di < now ∨ dateInstant dd < now := by
      rcases hcase with h | h
      · left; unfold dateInstant secPerDay at *; omega
      · right; exact h
    unfold UpdateInvoiceBeforeDueDate
    simp only [hfind, hdi, hdd]
    rw [if_pos hcond]
  · intro sOld hlt hle hid hsOld
    have hcond : ¬(dateInstant di < now ∨ dateInstant dd < now) := by
      push_neg
      refine ⟨?_, hle⟩
      unfold dateInstant secPerDay at *
      omega
    obtain ⟨u0, hu1, hu2⟩ := hfu
    have hanyU : db.users.any (userHasInvoice userID invoiceID) = true := any_of_find? hu1
    have hanyC : (getColl db "invoice").any (fun s => s.invoiceId == invoiceID) = true :=
      any_of_find? hsOld
    have hpc : ∀ s : StoredInvoice, (s.invoiceId == invoiceID) = true →
        ((storedOfInvoice upd).invoiceId == invoiceID) = true := by
      intro s _
      simp [storedOfInvoice, hid]
    have hpe : ∀ s : StoredInvoice, (s.invoiceId == invoiceID) = true →
        ((stdReplaceElem upd s).invoiceId == invoiceID) = true := by
      intro s _
      simp [stdReplaceElem, hid]
    have hfP : ∀ u : UserDoc, userHasInvoice userID invoiceID u = true →
        userHasInvoice userID invoiceID (embReplaceElem upd invoiceID u) = true := by
      intro u hu
      unfold userHasInvoice at hu ⊢
      rw [Bool.and_eq_true] at hu
      have e1 : (embReplaceElem upd invoiceID u).user = u.user := rfl
      have e2 : (embReplaceElem upd invoiceID u).invoices =
          replaceFirst u.invoices (fun s => s.invoiceId == invoiceID)
            (fun _ => storedOfInvoice upd) := rfl
      rw [e1, e2, Bool.and_eq_true,
        replaceFirst_any (fun s => s.invoiceId == invoiceID)
          (fun _ => storedOfInvoice upd) (fun s hs => hpc s hs) u.invoices]
      exact hu
    refine ⟨setColl
        { db with
          users := replaceFirst db.users (userHasInvoice userID invoiceID)
                     (embReplaceElem upd invoiceID) }
        "invoice"
        (replaceFirst (getColl db "invoice") (fun s => s.invoiceId == invoiceID)
          (stdReplaceElem upd)), ?_, ?_, ?_⟩
    · unfold UpdateInvoiceBeforeDueDate
      simp only [hfind, hdi, hdd]
      rw [if_neg hcond]
      simp only [mongoUpdateOneUsers, mongoUpdateOneColl, getColl_setUsers, hanyU, hanyC,
        Bool.not_true, Bool.false_eq_true, if_false]
    · unfold FindUserInvoiceByID
      rw [setColl_users]
      show (match (replaceFirst db.users (userHasInvoice userID invoiceID)
          (embReplaceElem upd invoiceID)).find? (userHasInvoice userID invoiceID) with
        | none => Except.error ("invoice not found for userID " ++ userID ++
            " and invoiceID " ++ invoiceID)
        | some u =>
          match u.invoices.find? (fun s => s.invoiceId == invoiceID) with
          | some s => Except.ok s
          | none => Except.error "invoice not found in user document") =
        Except.ok (storedOfInvoice upd)
      rw [replaceFirst_find? (userHasInvoice userID invoiceID)
        (embReplaceElem upd invoiceID) hfP db.users, hu1, Option.map_some']
      show (match (embReplaceElem upd invoiceID u0).invoices.find?
          (fun s => s.invoiceId == invoiceID) with
        | some s => Except.ok s
        | none => Except.error "invoice not found in user document") =
        Except.ok (storedOfInvoice upd)
      have e2 : (embReplaceElem upd invoiceID u0).invoices =
          replaceFirst u0.invoices (fun s => s.invoiceId == invoiceID)
            (fun _ => storedOfInvoice upd) := rfl
      rw [e2, replaceFirst_find? (fun s => s.invoiceId == invoiceID)
        (fun _ => storedOfInvoice upd) (fun s hs => hpc s hs) u0.invoices, hu2,
        Option.map_some']
    · rw [getColl_setColl, getColl_setUsers,
        replaceFirst_find? (fun s => s.invoiceId == invoiceID) (stdReplaceElem upd)
          (fun s hs => hpe s hs) (getColl db "invoice"), hsOld,
        Option.map_some']

/-- C1 witness: on `db0` at one hour past midnight of 2026-10-11, editing
invoice `i1` (issue date 2026-10-12, due date 2026-11-12) succeeds and
both copies hold the new invoice content. -/
theorem updateInvoiceBeforeDueDate_date_gate_witness :
    ∃ dbNew, UpdateInvoiceBeforeDueDate db0 "u1" "i1" updInv sampleNow = .ok dbNew ∧
      FindUserInvoiceByID dbNew "u1" "i1" = .ok (storedOfInvoice updInv) ∧
      (getColl dbNew "invoice").find? (fun s => s.invoiceId == "i1") =
        some (stdReplaceElem updInv sA) := by
  have h := (updateInvoiceBeforeDueDate_date_gate db0 "u1" "i1" updInv sampleNow
    sA ⟨2026, 10, 12⟩ ⟨2026, 11, 12⟩ rfl rfl rfl (by decide)).2 sA
    (by decide) (by decide) rfl rfl
  exact h

end Numeris
